import Mathlib

/-!
# Verification of the sigmet_raw client sources

Shallow embedding of the C sources of the `github_practice` repository
(`copy_bits.c`, `alloc3f.c`, `data.c`, `ray_headers.c`, `sigmet_raw_client.c`,
`sigmet.h`, `sigmet_raw.h`) together with proofs of the specified properties.

Bytes are modelled as natural numbers, C byte buffers as `List Nat`,
file descriptors as integers (negative = invalid, as in the sources),
and `float`/`double` values as `Option ℚ` where `none` stands for NaN.
-/

/-! ## Bitfield primitives (`copy_bits.c`) -/

/-- Byte at index `k` of a byte buffer; reading past the end yields 0
(the C source never does so under the stated preconditions). -/
def byteAt (bytes : List Nat) (k : Nat) : Nat :=
  bytes.getD k 0

/-- Bit at absolute bit position `p` of a byte buffer, LSB-first within each
byte: `(bytes[p / 8] >> (p % 8)) & 1`, exactly as `copy_bits.c` reads bits. -/
def byteBit (bytes : List Nat) (p : Nat) : Bool :=
  Nat.testBit (byteAt bytes (p / 8)) (p % 8)

/-- One iteration of the loop body of `copy_bits_packed_right`:
`dest_bytes[i / 8] |= (bit_val << (i % 8))`. -/
def setDestBit (dest : List Nat) (i : Nat) (b : Bool) : List Nat :=
  dest.set (i / 8) ((byteAt dest (i / 8)) ||| ((if b then 1 else 0) <<< (i % 8)))

/-- The loop `for (i = 0; i < n; ++i)` of `copy_bits_packed_right`, unrolled
from the high end: `copyLoop src o dest i` is the state after `i` iterations. -/
def copyLoop (src : List Nat) (o : Nat) (dest : List Nat) : Nat → List Nat
  | 0 => dest
  | i + 1 => setDestBit (copyLoop src o dest i) i (byteBit src (o + i))

/-- `copy_bits_packed_right(src, dest, o, n)` from `copy_bits.c`:
zero `(n + 7) / 8` destination bytes (the `memset`), then copy `n` bits from
`src` starting at bit offset `o`, packing them LSB-first into `dest`. -/
def copy_bits_packed_right (src : List Nat) (o n : Nat) : List Nat :=
  copyLoop src o (List.replicate ((n + 7) / 8) 0) n

/-! ## Constants from `sigmet.h` and `sigmet_raw.h` -/

/-- `SIGMET_DATA_TYPE_LEN` from `sigmet.h`: number of bytes in
`"DB_TEMPERATURE16"` NOT including the nul terminator. -/
def SIGMET_DATA_TYPE_LEN : Nat := 16

/-- `SIGMET_TZ_STRLEN` from `sigmet.h`: space for `"UTC-11:-59"`. -/
def SIGMET_TZ_STRLEN : Nat := 11

/-- `SIGMETRAW_RQST_IOVLEN` from `sigmet_raw.h`: number of regular data items
in a client-to-daemon request. -/
def SIGMETRAW_RQST_IOVLEN : Nat := 3

/-- `SIGMETRAW_RPS_IOVLEN` from `sigmet_raw.h`: declared number of metadata
slots in a daemon-to-client response
(status, num_swps, num_rays, num_swp_bins, swp_tm, tz, err). -/
def SIGMETRAW_RPS_IOVLEN : Nat := 7

/-- Slot of the error-channel descriptor in the request's ancillary data
(`enum {SigmetRawErrFD, SigmetRawHdrDataFD}` in `sigmet_raw.h`). -/
def SigmetRawErrFD : Nat := 0

/-- Slot of the headers/data (bulk) descriptor in the request's ancillary
data. -/
def SigmetRawHdrDataFD : Nat := 1

/-- `UINT_MAX` for the 32-bit `unsigned` of the target platform. -/
def UINT_MAX : Nat := 4294967295

/-! ## Request construction (`sigmet_raw_client.c`) -/

/-- The `abbrv` field of a freshly initialised request:
`SigmetRaw_Rqst_Init` zeroes all `SIGMET_DATA_TYPE_LEN` bytes (`memset`). -/
def rqstInitAbbrv : List Nat := List.replicate SIGMET_DATA_TYPE_LEN 0

/-- `SigmetRaw_Rqst_Set_DataType` from `sigmet_raw_client.c`:
`snprintf(rqst_p->abbrv, SIGMET_DATA_TYPE_LEN, "%s", abbrv)` on the
field `abbrv_field`.  `snprintf` with size 16 stores at most 15 source
bytes followed by a nul; bytes after the terminator keep their previous
contents. -/
def SigmetRaw_Rqst_Set_DataType (abbrv_field s : List Nat) : List Nat :=
  (s.take (SIGMET_DATA_TYPE_LEN - 1) ++ [0] ++
    abbrv_field.drop (min s.length (SIGMET_DATA_TYPE_LEN - 1) + 1)).take
    SIGMET_DATA_TYPE_LEN

/-- Byte values of an ASCII string. -/
def strBytes (s : String) : List Nat := s.data.map Char.toNat

/-- A request message as placed on the wire by one `sendmsg`: the regular
data is described by its iovec slot sizes, the ancillary data by the list of
file descriptors passed as `SCM_RIGHTS`. -/
structure SentRqstMsg where
  iovLens : List Nat
  fds : List Int
deriving DecidableEq

/-- `SigmetRaw_Rqst_Send` from `sigmet_raw_client.c`: three iovec slots
(subcommand code, `SIGMET_DATA_TYPE_LEN`-byte abbreviation, sweep index) and
two descriptors in ancillary data.  `devNullFd` stands for the descriptor
obtained by `open("/dev/null", O_RDONLY)`, used as `fd0` in place of any
descriptor the caller did not supply (negative field). -/
def SigmetRaw_Rqst_Send (errFd hdFd devNullFd : Int) : SentRqstMsg :=
  let fd0 : Int := if errFd < 0 ∨ hdFd < 0 then devNullFd else -1
  { iovLens := [4, SIGMET_DATA_TYPE_LEN, 4],
    fds := [if 0 ≤ errFd then errFd else fd0, if 0 ≤ hdFd then hdFd else fd0] }

/-! ## Response iovec shapes

The daemon's own sources are not part of this repository; its response shape
is modelled from the spec and from `sigmet_raw.h`.  The client-side shapes
are read off the `recvmsg` calls in `ray_headers.c` and `data.c`. -/

/-- Modelled from the spec: the daemon source is absent; per the spec and the
`SIGMETRAW_RPS_IOVLEN` declaration in `sigmet_raw.h`, every daemon response
carries seven metadata slots (status, num_sweeps, num_rays_per_sweep,
num_bins_in_sweep, sweep_time as a double, the 11-byte time zone, err_flag),
whether or not it is an error.  Entries are slot sizes in bytes. -/
def dmnRpsIov : List Nat := [4, 4, 4, 4, 8, SIGMET_TZ_STRLEN, 4]

/-- `recvmsg` iovec of `ray_hdrs_fm_skt` in `ray_headers.c`: status,
num_swps, num_rays, tz (4 slots). -/
def rayHdrsClientRpsIov : List Nat := [4, 4, 4, SIGMET_TZ_STRLEN]

/-- `recvmsg` iovec of the ray-header request in `skt_to_txt` in `data.c`:
status, num_swps, num_rays, swp_tm, tz (5 slots). -/
def datTxtRayHdrsRpsIov : List Nat := [4, 4, 4, 8, SIGMET_TZ_STRLEN]

/-- `recvmsg` iovec of the data request in `skt_to_txt` in `data.c`:
status only (1 slot). -/
def datTxtDatRpsIov : List Nat := [4]

/-- `recvmsg` iovec of `skt_to_bin` in `data.c`: status only (1 slot). -/
def datBinRpsIov : List Nat := [4]

/-- All `recvmsg` iovec shapes used by client receives in the sources. -/
def clientRpsIovs : List (List Nat) :=
  [rayHdrsClientRpsIov, datTxtRayHdrsRpsIov, datTxtDatRpsIov, datBinRpsIov]

/-! ## Client-side data-type validation (`data.c` main, `ray_headers.c` main) -/

/-- Modelled from the spec: the data-type dictionary is an external
collaborator; `Sigmet_DataTypeGet` is its `get_by_abbrev(name) →
descriptor | null` lookup over the list of registered abbreviations. -/
def Sigmet_DataTypeGet (registry : List String) (abbrv : String) : Option String :=
  registry.find? (fun t => t == abbrv)

/-- Outcome of the argument-validation phase of a client subcommand's
`main`: either an error exit before any daemon contact, or proceeding
towards sending a request. -/
inductive ClientDispatch where
  | earlyExit (stderrText : String) (exitCode : Nat)
  | contactDaemon (abbrv : String)
deriving DecidableEq

/-- The data-type check of `main` in `data.c` (and identically in
`ray_headers.c`): if `Sigmet_DataTypeGet(abbrv)` is null, print
`"<cmd>: <abbrv> is not a Sigmet data type.\n"` to standard error and
`exit(EXIT_FAILURE)`; otherwise continue towards the daemon. -/
def clientMainTypeCheck (registry : List String) (cmd abbrv : String) :
    ClientDispatch :=
  match Sigmet_DataTypeGet registry abbrv with
  | none => .earlyExit (cmd ++ ": " ++ abbrv ++ " is not a Sigmet data type.\n") 1
  | some _ => .contactDaemon abbrv

/-- Whether the client subcommand ever sends a request to the daemon when
invoked with the given abbreviation. -/
def clientSendsRqst (registry : List String) (abbrv : String) : Bool :=
  (Sigmet_DataTypeGet registry abbrv).isSome

/-! ## Text output of the `data` subcommand (`data.c`) -/

/-- One printed row of the text output of `data_fm_fl` in `data.c` for a ray
of the requested sweep and type.  Sample values are `Option ℚ`, `none`
standing for NaN.  The code first fills all `num_bins_max` output cells with
`NAN`; when the ray is present (`dat != NULL`) it overwrites the first
`num_bins` cells with the converted storage values, then prints all
`num_bins_max` cells. -/
def txtRowFile (numBinsMax : Nat) (ray : Option (Nat × (Nat → Option ℚ))) :
    List (Option ℚ) :=
  match ray with
  | none => List.replicate numBinsMax none
  | some (nb, conv) => (List.range numBinsMax).map fun b =>
      if b < nb then conv b else none

/-- One printed row of the text output of `skt_to_txt` in `data.c`: the ray's
`num_bins` values received from the daemon's bulk channel, then `NAN` for
every bin position up to the sweep's maximum bin count. -/
def txtRowSkt (numBinsMax nb : Nat) (vals : Nat → Option ℚ) : List (Option ℚ) :=
  ((List.range nb).map vals) ++ List.replicate (numBinsMax - nb) none

/-- Modelled from the spec: the daemon source is absent; a ray that is absent
in the volume (null data pointer) is served with bin count 0 in its wide ray
header, so it contributes no values to the bulk data channel, and clients
reconstruct per-ray bin counts from the ray headers. -/
def absentRayNumBins : Nat := 0

/-! ## Ray time reconstruction (`ray_headers.c`) -/

/-- NaN-propagating addition of `double` values (`none` = NaN). -/
def qaddNaN (a b : Option ℚ) : Option ℚ :=
  a.bind fun x => b.map fun y => x + y

/-- `Sigmet_DataTypeStorToVal` applied to the first data word of a ray's
extended-header chunk, as in `ray_hdrs_fm_fl`: `conv` is the adapter's
storage-to-physical conversion (out-of-range storage and absent chunks give
NaN, per the adapter interface), `xw` the first data word of the chunk
(`none` when the chunk is absent). -/
def xhdrOffset (conv : Int → Option ℚ) (xw : Option Int) : Option ℚ :=
  xw.bind conv

/-- The ray time offset of `ray_hdrs_fm_fl` in `ray_headers.c`:
`float ray_tm = NAN;` then, if the volume has extended headers, the offset
comes from the extended-header chunk, else `ray_tm = ray_hdr.tm`. -/
def rayTimOffset (havXhdr : Bool) (xOff : Option ℚ) (hdrTm : ℚ) : Option ℚ :=
  if havXhdr then xOff else some hdrTm

/-- The absolute ray time printed by `ray_hdrs_fm_fl`:
`swp_tm + ray_tm`, NaN-propagating. -/
def rayAbsTime (swpTm : ℚ) (havXhdr : Bool) (conv : Int → Option ℚ)
    (xw : Option Int) (hdrTm : ℚ) : Option ℚ :=
  qaddNaN (some swpTm) (rayTimOffset havXhdr (xhdrOffset conv xw) hdrTm)

/-! ## Sweep selection (`ray_headers.c`, `sigmet_raw.h`) -/

/-- `SigmetRaw_GetAllSwps` from `sigmet_raw.h`: a sweep index means "all
sweeps" exactly when it equals `UINT_MAX`. -/
def SigmetRaw_GetAllSwps (i_swp : Nat) : Bool :=
  i_swp == UINT_MAX

/-- The sweep-argument parsing of `main` in `ray_headers.c`: the literal
`"all"` maps to `UINT_MAX`, otherwise the argument is scanned as an unsigned
decimal (`sscanf "%u"`, modelled as a decimal parse). -/
def parseSwpArg (s : String) : Option Nat :=
  if s == "all" then some UINT_MAX else s.toNat?

/-- The sweep range iterated by `ray_hdrs_fm_fl`
(`s0 = all ? 0 : i_swp; s1 = all ? num_swps : i_swp + 1`). -/
def swpRange (i_swp num_swps : Nat) : Nat × Nat :=
  (if SigmetRaw_GetAllSwps i_swp then 0 else i_swp,
   if SigmetRaw_GetAllSwps i_swp then num_swps else i_swp + 1)

/-! ## Binary angles (`sigmet.h`) -/

/-- Modelled from the spec: `Sigmet_Bin2Rad` is declared in `sigmet.h` but
its implementation is not among the sources; per the spec,
`bin2_to_radians(u16) = (u / 65536) × 2π`. -/
noncomputable def Sigmet_Bin2Rad (u : Nat) : ℝ :=
  (u : ℝ) / 65536 * (2 * Real.pi)

/-- Modelled from the spec: `Sigmet_Bin4Rad` is declared in `sigmet.h` but
its implementation is not among the sources; per the spec,
`bin4_to_radians(u32) = (u / 2^32) × 2π`. -/
noncomputable def Sigmet_Bin4Rad (u : Nat) : ℝ :=
  (u : ℝ) / 4294967296 * (2 * Real.pi)

/-! ## 3-D float array (`alloc3f.c`) -/

/-- Element offset of `f[i][j]` into the data region of the single block of
`create_3d_float_array`: the source sets
`f[i][j] = f_k + (i * num_j * num_k) + (j * num_k)`. -/
def f_elem_offset (num_j num_k i j : Nat) : Nat :=
  i * num_j * num_k + j * num_k

/-- `create_3d_float_array` from `alloc3f.c`, with pointers modelled as
element offsets into the data region of the single allocated block;
`alloc_ok` is whether `malloc` succeeds.  On success the row pointers are set
so `f[i][j]` addresses the data region at `f_elem_offset`. -/
def create_3d_float_array (alloc_ok : Bool) (num_j num_k : Nat) :
    Option (Nat → Nat → Nat) :=
  if alloc_ok then some (f_elem_offset num_j num_k) else none

/-! ## Sample adapter functions used to evaluate theorems on concrete input -/

/-- A sample storage-to-physical conversion (constant). -/
def sampleConv : Nat → Option ℚ := fun _ => some 5

/-- A sample stream of received sample values (constant). -/
def sampleVals : Nat → Option ℚ := fun _ => some 7

/-- A sample extended-header conversion (constant). -/
def sampleXConv : Int → Option ℚ := fun _ => some (3 / 100)

/-! ## Helper lemmas for the bit-copy proof -/

theorem byteAt_set_self (l : List Nat) (k v : Nat) (h : k < l.length) :
    byteAt (l.set k v) k = v := by
  unfold byteAt
  induction l generalizing k with
  | nil => simp at h
  | cons a t ih =>
    cases k with
    | zero => simp [List.set]
    | succ m => simpa [List.set] using ih m (by simpa using h)

theorem byteAt_set_other (l : List Nat) (k v m : Nat) (h : m ≠ k) :
    byteAt (l.set k v) m = byteAt l m := by
  unfold byteAt
  induction l generalizing k m with
  | nil => simp
  | cons a t ih =>
    cases k with
    | zero =>
      cases m with
      | zero => exact absurd rfl h
      | succ m2 => simp [List.set]
    | succ k2 =>
      cases m with
      | zero => simp [List.set]
      | succ m2 => simpa [List.set] using ih k2 m2 (by omega)

theorem byteAt_replicate_zero (r k : Nat) : byteAt (List.replicate r 0) k = 0 := by
  unfold byteAt
  induction r generalizing k with
  | zero => simp
  | succ r2 ih =>
    cases k with
    | zero => simp
    | succ k2 =>
      have := ih k2
      simp only [List.replicate, List.getD_cons_succ]
      exact this

theorem testBit_one (k : Nat) : Nat.testBit 1 k = decide (k = 0) := by
  cases k with
  | zero => decide
  | succ m =>
    have : Nat.testBit 1 (m + 1) = Nat.testBit 0 m := by
      simp [Nat.testBit_succ]
    simp [this]

theorem copyLoop_length (src : List Nat) (o : Nat) (dest : List Nat) (i : Nat) :
    (copyLoop src o dest i).length = dest.length := by
  induction i with
  | zero => rfl
  | succ i2 ih => simp [copyLoop, setDestBit, List.length_set, ih]

/-- Effect of one loop iteration on an arbitrary destination bit. -/
theorem byteBit_setDestBit (d : List Nat) (i : Nat) (b : Bool)
    (hi : i / 8 < d.length) (j : Nat) :
    byteBit (setDestBit d i b) j =
      if j = i then (byteBit d i || b) else byteBit d j := by
  unfold byteBit setDestBit
  by_cases h8 : j / 8 = i / 8
  · rw [h8, byteAt_set_self _ _ _ hi]
    rw [Nat.testBit_or, Nat.testBit_shiftLeft]
    by_cases hji : j = i
    · subst hji
      cases b with
      | false => simp
      | true => simp [testBit_one]
    · have hm : j % 8 ≠ i % 8 := by omega
      have : (i % 8 ≤ j % 8 → j % 8 - i % 8 ≠ 0) := by omega
      simp only [if_neg hji]
      by_cases hle : i % 8 ≤ j % 8
      · have hpos : j % 8 - i % 8 ≠ 0 := this hle
        cases b with
        | false => simp [hle]
        | true => simp [hle, testBit_one, hpos, h8]
      · simp [hle, h8]
  · have hji : j ≠ i := by
      intro hc; exact h8 (by rw [hc])
    rw [byteAt_set_other _ _ _ _ h8]
    simp [hji]

/-- Loop invariant: after `i` iterations the first `i` destination bits hold
the source bits `o..o+i` and every other destination bit is still zero. -/
theorem copyLoop_bits (src : List Nat) (o n : Nat) :
    ∀ i, i ≤ n → ∀ j,
      byteBit (copyLoop src o (List.replicate ((n + 7) / 8) 0) i) j =
        if j < i then byteBit src (o + j) else false := by
  intro i
  induction i with
  | zero =>
    intro _ j
    simp [copyLoop, byteBit, byteAt_replicate_zero]
  | succ i2 ih =>
    intro hin j
    have hi2 : i2 ≤ n := by omega
    have hlen : i2 / 8 < (copyLoop src o (List.replicate ((n + 7) / 8) 0) i2).length := by
      rw [copyLoop_length, List.length_replicate]
      omega
    rw [copyLoop, byteBit_setDestBit _ _ _ hlen j]
    by_cases hji : j = i2
    · subst hji
      rw [if_pos rfl, ih hi2]
      simp
    · rw [if_neg hji, ih hi2]
      by_cases hlt : j < i2
      · have h1 : j < i2 + 1 := by omega
        simp [hlt, h1]
      · have h2 : ¬ j < i2 + 1 := by omega
        simp [hlt, h2]

/-- C1: `copy_bits_packed_right(src, dest, o, n)` produces `⌈n/8⌉` destination
bytes whose low `n` bits (read LSB-first) equal the source bits
`src[o..o+n]`, and whose bits at position `n` and above are all zero. -/
theorem C1_copy_bits_packed_right_correct (src : List Nat) (o n : Nat)
    (_hsrc : o + n ≤ 8 * src.length) :
    (copy_bits_packed_right src o n).length = (n + 7) / 8 ∧
    (∀ j, j < n → byteBit (copy_bits_packed_right src o n) j = byteBit src (o + j)) ∧
    (∀ j, n ≤ j → byteBit (copy_bits_packed_right src o n) j = false) := by
  refine ⟨?_, ?_, ?_⟩
  · unfold copy_bits_packed_right
    rw [copyLoop_length, List.length_replicate]
  · intro j hj
    unfold copy_bits_packed_right
    rw [copyLoop_bits src o n n le_rfl j]
    simp [hj]
  · intro j hj
    unfold copy_bits_packed_right
    rw [copyLoop_bits src o n n le_rfl j]
    have : ¬ j < n := by omega
    simp [this]

/-- Witness: `C1_copy_bits_packed_right_correct` evaluated at the two source
bytes `0xAB, 0xCD`, bit offset 4, 8 bits copied. -/
theorem C1_copy_bits_packed_right_correct_witness :
    4 + 8 ≤ 8 * ([171, 205] : List Nat).length ∧
    (copy_bits_packed_right [171, 205] 4 8).length = (8 + 7) / 8 ∧
    byteBit (copy_bits_packed_right [171, 205] 4 8) 2 = byteBit [171, 205] (4 + 2) ∧
    byteBit (copy_bits_packed_right [171, 205] 4 8) 9 = false :=
  ⟨by decide,
   (C1_copy_bits_packed_right_correct [171, 205] 4 8 (by decide)).1,
   (C1_copy_bits_packed_right_correct [171, 205] 4 8 (by decide)).2.1 2 (by decide),
   (C1_copy_bits_packed_right_correct [171, 205] 4 8 (by decide)).2.2 9 (by decide)⟩

/-! ## Remaining helper lemmas -/

theorem getD_range_map {α} (f : Nat → α) (mx b : Nat) (d : α) (h : b < mx) :
    ((List.range mx).map f).getD b d = f b := by
  rw [List.getD_eq_getElem?_getD, List.getElem?_map, List.getElem?_range h]
  rfl

theorem getD_replicate_of_lt {α} (x d : α) (k m : Nat) (h : m < k) :
    (List.replicate k x).getD m d = x := by
  rw [List.getD_eq_getElem?_getD, List.getElem?_replicate]
  simp [h]

theorem getD_append_right_len {α} (l l2 : List α) (d : α) (n : Nat)
    (h : l.length ≤ n) :
    (l ++ l2).getD n d = l2.getD (n - l.length) d := by
  rw [List.getD_eq_getElem?_getD, List.getElem?_append_right h,
    List.getD_eq_getElem?_getD]

/-- Uniqueness of the base-`base` digit decomposition. -/
theorem base_digit_unique (base a a2 b b2 : Nat) (hb : b < base) (hb2 : b2 < base)
    (h : a * base + b = a2 * base + b2) : a = a2 ∧ b = b2 := by
  have hbase : 0 < base := lt_of_le_of_lt (Nat.zero_le b) hb
  have key : ∀ x y : Nat, y < base → (x * base + y) / base = x := by
    intro x y hy
    rw [Nat.add_comm, Nat.mul_comm, Nat.add_mul_div_left y x hbase,
      Nat.div_eq_of_lt hy, Nat.zero_add]
  have ha : a = a2 := by
    rw [← key a b hb, h, key a2 b2 hb2]
  refine ⟨ha, ?_⟩
  subst ha
  exact Nat.add_left_cancel h

/-! ## Claim theorems C2 .. C10 -/

/-- C2: the claim says every abbreviation of length at most 16 is stored in
the 16-byte data-type field unaltered (zero-padded).  The code truncates: the
`snprintf` in `SigmetRaw_Rqst_Set_DataType` stores at most 15 characters plus
a nul, so the 16-character abbreviation `"DB_TEMPERATURE16"` — the very
string `SIGMET_DATA_TYPE_LEN` is documented to accommodate — loses its final
character.  This theorem evaluates the code at that failing input. -/
theorem C2_set_data_type_truncates_16 :
    SigmetRaw_Rqst_Set_DataType rqstInitAbbrv (strBytes "DB_TEMPERATURE16") =
      strBytes "DB_TEMPERATURE1" ++ [0] ∧
    SigmetRaw_Rqst_Set_DataType rqstInitAbbrv (strBytes "DB_TEMPERATURE16") ≠
      strBytes "DB_TEMPERATURE16" := by
  constructor
  · decide
  · decide

/-- C3 (counterexample): it is not the case that every client receive parses
the reply under the fixed seven-slot shape `SIGMETRAW_RPS_IOVLEN`: the
`recvmsg` in `ray_hdrs_fm_skt` uses a 4-slot iovec. -/
theorem C3_fixed_shape_counterexample :
    ¬ (dmnRpsIov.length = SIGMETRAW_RPS_IOVLEN ∧
       ∀ iov ∈ clientRpsIovs, iov.length = SIGMETRAW_RPS_IOVLEN) := by
  decide

/-- C3 (amended): the daemon response carries exactly seven metadata slots
(modelled from the spec and `SIGMETRAW_RPS_IOVLEN`), but the clients parse
replies with shorter iovec vectors: 4 slots in `ray_hdrs_fm_skt`, 5 slots for
the ray-header request and 1 slot for the data request in `skt_to_txt`, and
1 slot in `skt_to_bin`. -/
theorem C3_response_shapes :
    dmnRpsIov.length = SIGMETRAW_RPS_IOVLEN ∧
    rayHdrsClientRpsIov.length = 4 ∧
    datTxtRayHdrsRpsIov.length = 5 ∧
    datTxtDatRpsIov.length = 1 ∧
    datBinRpsIov.length = 1 := by
  decide

/-- C4: every request message consists of exactly three regular data items
(4-byte subcommand code, 16-byte abbreviation, 4-byte sweep index) plus
exactly two file descriptors in ancillary data, the error channel in slot
`SigmetRawErrFD = 0` and the bulk channel in slot `SigmetRawHdrDataFD = 1`;
a missing descriptor is replaced by the `/dev/null` placeholder, so every
descriptor actually sent is open (non-negative). -/
theorem C4_rqst_send_shape (errFd hdFd devNullFd : Int) (hdev : 0 ≤ devNullFd) :
    (SigmetRaw_Rqst_Send errFd hdFd devNullFd).iovLens =
      [4, SIGMET_DATA_TYPE_LEN, 4] ∧
    (SigmetRaw_Rqst_Send errFd hdFd devNullFd).iovLens.length =
      SIGMETRAW_RQST_IOVLEN ∧
    (SigmetRaw_Rqst_Send errFd hdFd devNullFd).fds.length = 2 ∧
    (SigmetRaw_Rqst_Send errFd hdFd devNullFd).fds.getD SigmetRawErrFD (-1) =
      (if 0 ≤ errFd then errFd else devNullFd) ∧
    (SigmetRaw_Rqst_Send errFd hdFd devNullFd).fds.getD SigmetRawHdrDataFD (-1) =
      (if 0 ≤ hdFd then hdFd else devNullFd) ∧
    (∀ fd ∈ (SigmetRaw_Rqst_Send errFd hdFd devNullFd).fds, 0 ≤ fd) := by
  unfold SigmetRaw_Rqst_Send SigmetRawErrFD SigmetRawHdrDataFD
  refine ⟨rfl, rfl, rfl, ?_, ?_, ?_⟩
  · simp only [List.getD_cons_zero]
    by_cases he : 0 ≤ errFd
    · simp [he]
    · have hlt : errFd < 0 := by omega
      simp [he, hlt]
  · simp only [List.getD_cons_succ, List.getD_cons_zero]
    by_cases hh : 0 ≤ hdFd
    · simp [hh]
    · have hlt : hdFd < 0 := by omega
      simp [hh, hlt]
  · intro fd hfd
    simp only [List.mem_cons, List.not_mem_nil, or_false] at hfd
    rcases hfd with h | h <;> subst h <;>
      · by_cases he : 0 ≤ errFd <;> by_cases hh : 0 ≤ hdFd <;>
          simp [he, hh] <;> omega

/-- Witness: `C4_rqst_send_shape` at `errFd = 5`, missing bulk descriptor
(`hdFd = -1`), placeholder descriptor 3. -/
theorem C4_rqst_send_shape_witness :
    (0 : Int) ≤ 3 ∧
    (SigmetRaw_Rqst_Send 5 (-1) 3).iovLens.length = SIGMETRAW_RQST_IOVLEN ∧
    (SigmetRaw_Rqst_Send 5 (-1) 3).fds.getD SigmetRawErrFD (-1) = 5 ∧
    (SigmetRaw_Rqst_Send 5 (-1) 3).fds.getD SigmetRawHdrDataFD (-1) = 3 :=
  ⟨by decide,
   (C4_rqst_send_shape 5 (-1) 3 (by decide)).2.1,
   ((C4_rqst_send_shape 5 (-1) 3 (by decide)).2.2.2.1).trans (by decide),
   ((C4_rqst_send_shape 5 (-1) 3 (by decide)).2.2.2.2.1).trans (by decide)⟩

/-- C5 (counterexample): invoked with the unknown abbreviation `"DB_FOO"`,
the `data` subcommand exits locally — printing
`"data: DB_FOO is not a Sigmet data type."` to standard error with exit code
1 — and never sends a request, so no daemon response (status `Error`, error
channel text) exists for this invocation, contrary to the claim. -/
theorem C5_unknown_type_counterexample :
    clientMainTypeCheck ["DB_DBZ"] "data" "DB_FOO" =
      ClientDispatch.earlyExit "data: DB_FOO is not a Sigmet data type.\n" 1 ∧
    clientSendsRqst ["DB_DBZ"] "DB_FOO" = false := by
  constructor
  · decide
  · decide

/-- C5 (amended): when a client subcommand is invoked with a data-type
abbreviation that matches no registered type, the client itself rejects it
before contacting the daemon: it prints
`"<cmd>: <abbrv> is not a Sigmet data type."` to standard error and exits
with the non-zero code `EXIT_FAILURE = 1`; no request is sent. -/
theorem C5_unknown_type_client_exit (registry : List String) (cmd abbrv : String)
    (h : Sigmet_DataTypeGet registry abbrv = none) :
    clientMainTypeCheck registry cmd abbrv =
      ClientDispatch.earlyExit
        (cmd ++ ": " ++ abbrv ++ " is not a Sigmet data type.\n") 1 ∧
    clientSendsRqst registry abbrv = false := by
  unfold clientMainTypeCheck clientSendsRqst
  rw [h]
  exact ⟨rfl, rfl⟩

/-- Witness: `C5_unknown_type_client_exit` with an empty registry and
abbreviation `"XX"`. -/
theorem C5_unknown_type_client_exit_witness :
    Sigmet_DataTypeGet [] "XX" = none ∧
    (clientMainTypeCheck [] "rh" "XX" =
      ClientDispatch.earlyExit
        ("rh" ++ ": " ++ "XX" ++ " is not a Sigmet data type.\n") 1 ∧
     clientSendsRqst [] "XX" = false) :=
  ⟨rfl, C5_unknown_type_client_exit [] "rh" "XX" rfl⟩

/-- C6: in the text output of the `data` subcommand, an absent ray prints as
NaN for the whole maximum bin count, and a present ray prints NaN for every
bin position at or beyond its own bin count — in the file-reading path
(`txtRowFile`) and in the socket-reading path (`txtRowSkt`, where an absent
ray is served with `absentRayNumBins = 0` bins). -/
theorem C6_text_output_nan (numBinsMax nb b : Nat)
    (conv vals : Nat → Option ℚ) :
    txtRowFile numBinsMax none = List.replicate numBinsMax none ∧
    (nb ≤ b → b < numBinsMax →
      (txtRowFile numBinsMax (some (nb, conv))).getD b (some 0) = none) ∧
    txtRowSkt numBinsMax absentRayNumBins vals = List.replicate numBinsMax none ∧
    (nb ≤ b → b < numBinsMax →
      (txtRowSkt numBinsMax nb vals).getD b (some 0) = none) := by
  refine ⟨rfl, ?_, ?_, ?_⟩
  · intro h1 h2
    unfold txtRowFile
    rw [getD_range_map _ _ _ _ h2]
    have : ¬ b < nb := by omega
    simp [this]
  · unfold txtRowSkt absentRayNumBins
    simp
  · intro h1 h2
    unfold txtRowSkt
    have hlen : ((List.range nb).map vals).length ≤ b := by
      simpa using h1
    rw [getD_append_right_len _ _ _ _ hlen]
    have hlen2 : ((List.range nb).map vals).length = nb := by simp
    rw [hlen2]
    exact getD_replicate_of_lt _ _ _ _ (by omega)

/-- Witness: `C6_text_output_nan` with 3 maximum bins, a present ray of 1
bin, inspected at bin 2. -/
theorem C6_text_output_nan_witness :
    (1 ≤ 2 ∧ 2 < 3) ∧
    txtRowFile 3 none = List.replicate 3 none ∧
    (txtRowFile 3 (some (1, sampleConv))).getD 2 (some 0) = none ∧
    txtRowSkt 3 absentRayNumBins sampleVals = List.replicate 3 none ∧
    (txtRowSkt 3 1 sampleVals).getD 2 (some 0) = none :=
  ⟨⟨by decide, by decide⟩,
   (C6_text_output_nan 3 1 2 sampleConv sampleVals).1,
   (C6_text_output_nan 3 1 2 sampleConv sampleVals).2.1 (by decide) (by decide),
   (C6_text_output_nan 3 1 2 sampleConv sampleVals).2.2.1,
   (C6_text_output_nan 3 1 2 sampleConv sampleVals).2.2.2 (by decide) (by decide)⟩

/-- C7: the absolute ray time is the sweep start time plus the ray's time
offset; without extended headers the offset is the ray header's time field,
with extended headers it is the converted first data word of the ray's
extended-header chunk, and the time is NaN (`none`) when that is
unavailable. -/
theorem C7_ray_time (swpTm hdrTm : ℚ) (conv : Int → Option ℚ)
    (xw : Option Int) (w : Int) (q : ℚ) :
    rayAbsTime swpTm false conv xw hdrTm = some (swpTm + hdrTm) ∧
    (xw = some w → conv w = some q →
      rayAbsTime swpTm true conv xw hdrTm = some (swpTm + q)) ∧
    (xhdrOffset conv xw = none →
      rayAbsTime swpTm true conv xw hdrTm = none) := by
  refine ⟨rfl, ?_, ?_⟩
  · intro h1 h2
    unfold rayAbsTime rayTimOffset xhdrOffset qaddNaN
    rw [h1]
    simp [h2]
  · intro h
    unfold rayAbsTime rayTimOffset qaddNaN
    simp [h]

/-- Witness: `C7_ray_time` at sweep time 100, header offset 2, an
extended-header word 3 converting to 3/100, and an absent chunk. -/
theorem C7_ray_time_witness :
    (some (3 : Int) = some 3 ∧ sampleXConv 3 = some (3 / 100)) ∧
    rayAbsTime 100 false sampleXConv (some 3) 2 = some (100 + 2) ∧
    rayAbsTime 100 true sampleXConv (some 3) 2 = some (100 + 3 / 100) ∧
    rayAbsTime 100 true sampleXConv none 2 = none :=
  ⟨⟨rfl, rfl⟩,
   (C7_ray_time 100 2 sampleXConv (some 3) 3 (3 / 100)).1,
   (C7_ray_time 100 2 sampleXConv (some 3) 3 (3 / 100)).2.1 rfl rfl,
   (C7_ray_time 100 2 sampleXConv none 3 (3 / 100)).2.2 rfl⟩

/-- C8: the `ray_headers` subcommand maps the literal argument `"all"` to
`UINT_MAX`; a request covers all sweeps exactly when its sweep index equals
`UINT_MAX`, in which case the iterated range is `[0, num_swps)`, and
otherwise the range is the single sweep `[i, i+1)`. -/
theorem C8_all_sweeps (i ns : Nat) :
    parseSwpArg "all" = some UINT_MAX ∧
    (SigmetRaw_GetAllSwps i = true ↔ i = UINT_MAX) ∧
    (SigmetRaw_GetAllSwps i = true → swpRange i ns = (0, ns)) ∧
    (SigmetRaw_GetAllSwps i = false → swpRange i ns = (i, i + 1)) := by
  refine ⟨rfl, ?_, ?_, ?_⟩
  · simp [SigmetRaw_GetAllSwps]
  · intro h
    simp [swpRange, h]
  · intro h
    simp [swpRange, h]

/-- Witness: `C8_all_sweeps` at sweep index `UINT_MAX` (all sweeps, 5-sweep
volume) and at the single sweep index 2. -/
theorem C8_all_sweeps_witness :
    SigmetRaw_GetAllSwps 4294967295 = true ∧
    SigmetRaw_GetAllSwps 2 = false ∧
    parseSwpArg "all" = some UINT_MAX ∧
    swpRange 4294967295 5 = (0, 5) ∧
    swpRange 2 5 = (2, 3) :=
  ⟨by decide, by decide,
   (C8_all_sweeps 2 5).1,
   (C8_all_sweeps 4294967295 5).2.2.1 (by decide),
   (C8_all_sweeps 2 5).2.2.2 (by decide)⟩

/-- C9: for every 16-bit unsigned `u`,
`|Sigmet_Bin2Rad u / 2π × 65536 − u| < 0.5`, and the analogous bound holds
for `Sigmet_Bin4Rad` on every 32-bit unsigned with divisor `2^32`. -/
theorem C9_bin_angle_roundtrip (u v : Nat) (_hu : u < 65536)
    (_hv : v < 4294967296) :
    |Sigmet_Bin2Rad u / (2 * Real.pi) * 65536 - (u : ℝ)| < 1 / 2 ∧
    |Sigmet_Bin4Rad v / (2 * Real.pi) * 4294967296 - (v : ℝ)| < 1 / 2 := by
  constructor
  · have h : Sigmet_Bin2Rad u / (2 * Real.pi) * 65536 - (u : ℝ) = 0 := by
      unfold Sigmet_Bin2Rad
      rw [mul_div_cancel_right₀ _ (by positivity : (2 * Real.pi) ≠ 0),
        div_mul_cancel₀ _ (by norm_num : (65536 : ℝ) ≠ 0), sub_self]
    rw [h, abs_zero]
    norm_num
  · have h : Sigmet_Bin4Rad v / (2 * Real.pi) * 4294967296 - (v : ℝ) = 0 := by
      unfold Sigmet_Bin4Rad
      rw [mul_div_cancel_right₀ _ (by positivity : (2 * Real.pi) ≠ 0),
        div_mul_cancel₀ _ (by norm_num : (4294967296 : ℝ) ≠ 0), sub_self]
    rw [h, abs_zero]
    norm_num

/-- Witness: `C9_bin_angle_roundtrip` at `u = 7`, `v = 9`. -/
theorem C9_bin_angle_roundtrip_witness :
    7 < 65536 ∧ 9 < 4294967296 ∧
    (|Sigmet_Bin2Rad 7 / (2 * Real.pi) * 65536 - ((7 : Nat) : ℝ)| < 1 / 2 ∧
     |Sigmet_Bin4Rad 9 / (2 * Real.pi) * 4294967296 - ((9 : Nat) : ℝ)| < 1 / 2) :=
  ⟨by norm_num, by norm_num,
   C9_bin_angle_roundtrip 7 9 (by norm_num) (by norm_num)⟩

/-- C10: `create_3d_float_array` returns null exactly when allocation fails;
otherwise `f[i][j]` addresses the data region at element offset
`(i * num_j + j) * num_k`, and for in-range `(i, j, k)` these offsets are
pairwise distinct, so the cells are `num_i * num_j * num_k` non-overlapping
floats. -/
theorem C10_create_3d_float_array_correct (ok : Bool) (ni nj nk : Nat) :
    ((create_3d_float_array ok nj nk = none) ↔ ok = false) ∧
    (∀ f, create_3d_float_array ok nj nk = some f →
      ∀ i j, f i j = (i * nj + j) * nk) ∧
    (∀ i j k i2 j2 k2, i < ni → j < nj → k < nk →
      i2 < ni → j2 < nj → k2 < nk →
      f_elem_offset nj nk i j + k = f_elem_offset nj nk i2 j2 + k2 →
      i = i2 ∧ j = j2 ∧ k = k2) := by
  refine ⟨?_, ?_, ?_⟩
  · cases ok <;> simp [create_3d_float_array]
  · intro f hf i j
    cases ok with
    | false => simp [create_3d_float_array] at hf
    | true =>
      simp only [create_3d_float_array, if_pos] at hf
      rw [← Option.some_inj.mp hf]
      unfold f_elem_offset
      ring
  · intro i j k i2 j2 k2 hi hj hk hi2 hj2 hk2 h
    have e1 : f_elem_offset nj nk i j + k = (i * nj + j) * nk + k := by
      unfold f_elem_offset
      ring
    have e2 : f_elem_offset nj nk i2 j2 + k2 = (i2 * nj + j2) * nk + k2 := by
      unfold f_elem_offset
      ring
    rw [e1, e2] at h
    obtain ⟨hrow, hkk⟩ := base_digit_unique nk (i * nj + j) (i2 * nj + j2) k k2 hk hk2 h
    obtain ⟨hii, hjj⟩ := base_digit_unique nj i i2 j j2 hj hj2 hrow
    exact ⟨hii, hjj, hkk⟩

/-- Witness: `C10_create_3d_float_array_correct` for a 2 × 3 × 4 array. -/
theorem C10_create_3d_float_array_correct_witness :
    (1 < 2 ∧ 2 < 3 ∧ 3 < 4) ∧
    ((create_3d_float_array true 3 4 = none) ↔ (true = false)) ∧
    f_elem_offset 3 4 1 2 = (1 * 3 + 2) * 4 ∧
    (1 = 1 ∧ 2 = 2 ∧ 3 = 3) :=
  ⟨⟨by decide, by decide, by decide⟩,
   (C10_create_3d_float_array_correct true 2 3 4).1,
   by
     have := (C10_create_3d_float_array_correct true 2 3 4).2.1
       (f_elem_offset 3 4) rfl 1 2
     simpa using this,
   (C10_create_3d_float_array_correct true 2 3 4).2.2 1 2 3 1 2 3 (by decide)
     (by decide) (by decide) (by decide) (by decide) (by decide) rfl⟩
